import Mathlib

/-!
# Verification of the visatrack attachment pipeline

Shallow embedding, in Lean 4, of the frontend attachment pipeline of the
`caffeinepub/visatrack` repository: the Candid optional decoder, the byte
canonicalizer, the PDF structural validator, the FNV-1a content-signature
engine, the attachment assembly, and the Blob-URL display-resource hooks.

The repository ships several near-duplicate iterations of some modules
(separated in the source dump by document separators); where iterations
differ observably, both are embedded, suffixed by iteration (`V2`, `V3`
for the second and third iteration inside a file, matching cited line
ranges).

JavaScript dynamic values are embedded as the inductive type `JSValue`.
Machine arithmetic of the hash (JS signed 32-bit `^`, `Math.imul`, and
`>>> 0`) is embedded over `Int`/`Nat` with explicit two-power reductions.
-/

set_option maxRecDepth 4000

/-- Model of an untyped JavaScript value as it arrives over the Candid
boundary.  `vBytes` stands for a `Uint8Array` (its elements are byte
values `< 256` whenever the buffer was really produced by the platform);
`vArr` is a JS `Array`; `vObj` is a plain object as an insertion-ordered
field list (JS objects have pairwise-distinct keys, which theorems record
as a `Nodup` hypothesis where it matters). -/
inductive JSValue where
  | vNull
  | vUndefined
  | vBool (b : Bool)
  | vNum (n : Int)
  | vStr (s : String)
  | vBytes (bs : List Nat)
  | vArr (xs : List JSValue)
  | vObj (fields : List (String × JSValue))

open JSValue

/-- JavaScript falsiness (`!v` is true): `null`, `undefined`, `false`,
`0`, and the empty string.  (`NaN` is not representable in the model;
all other values — including empty arrays, empty `Uint8Array`s and
empty objects — are truthy.) -/
def jsFalsy : JSValue → Bool
  | vNull => true
  | vUndefined => true
  | vBool b => !b
  | vNum n => n == 0
  | vStr s => s == ""
  | _ => false

/-- JavaScript truthiness. -/
def jsTruthy (v : JSValue) : Bool := !jsFalsy v

/-- Field lookup on an object field list: JS property access `o[k]`
yields `undefined` when the key is missing. -/
def getField (fields : List (String × JSValue)) (k : String) : JSValue :=
  match fields.find? (fun p => p.1 == k) with
  | some p => p.2
  | none => vUndefined

/-- JS property access `v[k]` for the values the pipeline reads fields
from.  On non-objects (numbers, strings, arrays, buffers) the named
properties read by the pipeline (`filename`, `contentType`, `bytes`,
`__kind__`, `value`, `attachment`, ...) do not exist, so access yields
`undefined`; access on `null`/`undefined` never happens on the modelled
paths (it is guarded by truthiness checks in the source). -/
def jsGet (v : JSValue) (k : String) : JSValue :=
  match v with
  | vObj fs => getField fs k
  | _ => vUndefined

/-- `k in v`: key presence via the JS `in` operator, for the
non-numeric field names the pipeline probes (those names are never
array indices, so on arrays and buffers the probe is false). -/
def jsHasField (v : JSValue) (k : String) : Bool :=
  match v with
  | vObj fs => fs.any (fun p => p.1 == k)
  | _ => false

/-- `typeof v === 'object'` (true for `null`, arrays, buffers and plain
objects). -/
def jsTypeofObject : JSValue → Bool
  | vNull => true
  | vArr _ => true
  | vObj _ => true
  | vBytes _ => true
  | _ => false

/-- JS `ToUint8` conversion applied by a `new Uint8Array(...)` element
write, for the element values that occur on the modelled wire
(`number`s, `null`, `undefined`, booleans).  Numbers are reduced
modulo `2^8` (negative values wrap, e.g. `-1 ↦ 255`); `null` and
`false` convert to `0`, `true` to `1`, and `undefined` (`NaN`) to `0`.
String/object element values never occur in a Candid byte payload and
are mapped to `0` here; no theorem below depends on them. -/
def jsToUint8 : JSValue → Nat
  | vNum n => (n % 256).toNat
  | vBool b => if b then 1 else 0
  | _ => 0

/-- The canonical-array-index test used by JS `Object.keys` ordering:
a string of decimal digits with no leading zero (except `"0"` itself)
whose value is below `2^32 - 1`.  Returns the index value. -/
def canonIndex (s : String) : Option Nat :=
  let cs := s.data
  if cs ≠ [] ∧ cs.all Char.isDigit ∧ (cs = ['0'] ∨ cs.head? ≠ some '0') then
    let n := cs.foldl (fun a c => a * 10 + (c.toNat - 48)) 0
    if n < 4294967295 then some n else none
  else none

/-- Insertion step of the index-key sort (two distinct canonical index
strings always have distinct values, so stability is moot). -/
def insertKey (x : String) : List String → List String
  | [] => [x]
  | y :: ys =>
    if ((canonIndex x).getD 0) ≤ ((canonIndex y).getD 0) then x :: y :: ys
    else y :: insertKey x ys

/-- Sort canonical index keys by their numeric value. -/
def sortKeys : List String → List String
  | [] => []
  | x :: xs => insertKey x (sortKeys xs)

/-- `Object.keys` enumeration order: canonical array-index keys first in
ascending numeric order, then the remaining (string) keys in insertion
order. -/
def objKeys (fields : List (String × JSValue)) : List String :=
  let ks := fields.map (·.1)
  let idx := ks.filter (fun k => (canonIndex k).isSome)
  let rest := ks.filter (fun k => (canonIndex k).isNone)
  sortKeys idx ++ rest

/-- Recognizer for `!isNaN(Number(key))` on the key strings that occur
as object keys of a wire byte payload.  `Number(s)` is not `NaN` for:
the empty/whitespace-only string (value `0`), a signed decimal literal
with optional fraction and exponent, `Infinity`, and `0x`/`0o`/`0b`
prefixed integer literals.  The recognizer below accepts exactly those
shapes (whitespace handling restricted to the space character, the only
whitespace that can reach an object key in this pipeline). -/
def decDigits (cs : List Char) : Bool := cs ≠ [] ∧ cs.all Char.isDigit

/-- Unsigned decimal part of a JS numeric literal:
`digits [. digits?] | . digits`, with optional `e`/`E` exponent. -/
def decBody (cs : List Char) : Bool :=
  let split := fun (l : List Char) (c : Char) =>
    (l.takeWhile (· ≠ c), l.dropWhile (· ≠ c))
  let (mant, expPart) :=
    if cs.any (fun c => c = 'e' ∨ c = 'E') then
      let m := cs.takeWhile (fun c => c ≠ 'e' ∧ c ≠ 'E')
      let e := cs.dropWhile (fun c => c ≠ 'e' ∧ c ≠ 'E')
      (m, e.drop 1)
    else (cs, [])
  let mantOk :=
    if mant.any (· = '.') then
      let (ip, rest) := split mant '.'
      let fp := rest.drop 1
      (¬ fp.any (· = '.')) ∧
        ((decDigits ip ∧ (fp = [] ∨ decDigits fp)) ∨ (ip = [] ∧ decDigits fp))
    else decDigits mant
  let expOk :=
    if cs.any (fun c => c = 'e' ∨ c = 'E') then
      (match expPart with
       | '+' :: ds => decDigits ds
       | '-' :: ds => decDigits ds
       | ds => decDigits ds)
    else true
  mantOk ∧ expOk

/-- `!isNaN(Number(s))`. -/
def jsIsNumericString (s : String) : Bool :=
  let cs := (s.data.dropWhile (· = ' ')).reverse.dropWhile (· = ' ') |>.reverse
  match cs with
  | [] => true
  | '+' :: rest =>
      decBody rest ∨ rest = "Infinity".data
  | '-' :: rest =>
      decBody rest ∨ rest = "Infinity".data
  | '0' :: 'x' :: ds => ds ≠ [] ∧ ds.all (fun c =>
      c.isDigit ∨ ('a' ≤ c ∧ c ≤ 'f') ∨ ('A' ≤ c ∧ c ≤ 'F'))
  | '0' :: 'X' :: ds => ds ≠ [] ∧ ds.all (fun c =>
      c.isDigit ∨ ('a' ≤ c ∧ c ≤ 'f') ∨ ('A' ≤ c ∧ c ≤ 'F'))
  | '0' :: 'o' :: ds => ds ≠ [] ∧ ds.all (fun c => '0' ≤ c ∧ c ≤ '7')
  | '0' :: 'O' :: ds => ds ≠ [] ∧ ds.all (fun c => '0' ≤ c ∧ c ≤ '7')
  | '0' :: 'b' :: ds => ds ≠ [] ∧ ds.all (fun c => c = '0' ∨ c = '1')
  | '0' :: 'B' :: ds => ds ≠ [] ∧ ds.all (fun c => c = '0' ∨ c = '1')
  | rest => decBody rest ∨ rest = "Infinity".data

/-! ## JS 32-bit integer arithmetic

`computeBytesSignature` runs on JS numbers: `^` converts its operands
with `ToInt32`, xors the 32-bit patterns and yields a signed 32-bit
result; `Math.imul` multiplies the 32-bit patterns modulo `2^32` and
yields a signed result; `>>> 0` reinterprets the pattern as unsigned.
The embeddings below work on `Int`, with the unsigned 32-bit pattern
extracted by `toUInt32`. -/

/-- The unsigned 32-bit pattern of a JS integral number (`n >>> 0`). -/
def toUInt32 (n : Int) : Nat := (n % 4294967296).toNat

/-- `ToInt32`: reduce modulo `2^32` into `[-2^31, 2^31)`. -/
def toInt32 (n : Int) : Int :=
  let m := n % 4294967296
  if m < 2147483648 then m else m - 4294967296

/-- JS `a ^ b` on integral numbers. -/
def jsXor (a b : Int) : Int :=
  toInt32 (Int.ofNat ((toUInt32 a) ^^^ (toUInt32 b)))

/-- JS `Math.imul(a, b)`. -/
def jsImul (a b : Int) : Int :=
  toInt32 (Int.ofNat ((toUInt32 a * toUInt32 b) % 4294967296))

/-- One FNV-1a loop iteration of the source:
`hash ^= b; hash = Math.imul(hash, 0x01000193)`. -/
def fnvStepJS (h : Int) (b : Nat) : Int := jsImul (jsXor h (Int.ofNat b)) 16777619

/-- Lowercase hex digit character for a value `< 16`. -/
def hexDigitChar (m : Nat) : Char :=
  if m < 10 then Char.ofNat (48 + m) else Char.ofNat (87 + m)

/-- The `k` lowercase hex digits (most significant first) of `n % 16^k`:
the value of `n.toString(16).padStart(k, '0')` for `n < 16^k`. -/
def natToHexAux : Nat → Nat → List Char
  | 0, _ => []
  | k + 1, n => natToHexAux k (n / 16) ++ [hexDigitChar (n % 16)]

/-- `(n >>> 0).toString(16).padStart(8, '0')` for `n < 2^32`. -/
def toHex8 (n : Nat) : String := String.mk (natToHexAux 8 n)

/-- Independent hex parse used to state what the formatted signature
denotes. -/
def hexCharVal (c : Char) : Nat :=
  if 97 ≤ c.toNat then c.toNat - 87 else c.toNat - 48

/-- Parse a lowercase hex string back to the number it denotes. -/
def hexToNat (s : String) : Nat :=
  s.data.foldl (fun a c => a * 16 + hexCharVal c) 0

/-- The claim's reference FNV-1a definition (stated from the spec's
words, for comparison with the embedded source): accumulator starts at
the offset basis `0x811c9dc5`; each byte is XORed in and the result
multiplied by the prime `0x01000193` with 32-bit wraparound. -/
def fnv1aRef (bs : List Nat) : Nat :=
  bs.foldl (fun h b => ((h ^^^ b) * 16777619) % 4294967296) 2166136261

/-- `computeBytesSignature`, first iteration of
`src/frontend/src/utils/bytesSignature.ts` (input
`Uint8Array | number[] | undefined`; `none` stands for
`undefined`/`null`, `some bs` for a buffer or array with the given
element values; the `new Uint8Array(bytes)` conversion reduces array
elements with `ToUint8`, embedded as `% 256`).  The source's
`try`/`catch` wrapping (returning `"error"`) guards platform failures
that cannot occur in the pure hash loop; the embedding is total by
construction. -/
def computeBytesSignature (bytes : Option (List Nat)) : String :=
  match bytes with
  | none => "empty"
  | some bs =>
    if bs.length = 0 then "empty"
    else toHex8 (toUInt32 ((bs.map (· % 256)).foldl fnvStepJS 2166136261))

/-- `value.length === 0` as probed by the second signature iteration
(strict equality against the number `0`; on values without a `length`
property the comparison is against `undefined` and false). -/
def jsLengthIsZero : JSValue → Bool
  | vBytes bs => bs.length == 0
  | vArr xs => xs.length == 0
  | vStr s => s.length == 0
  | vObj fs =>
      match getField fs "length" with
      | vNum n => n == 0
      | _ => false
  | _ => false

/-- `computeBytesSignature`, second iteration of
`src/frontend/src/utils/bytesSignature.ts` (input typed
`Uint8Array | null | undefined` but probed dynamically): falsy input
yields `"null"`, zero length yields `"empty"`, a non-`Uint8Array`
yields `"invalid-type"`, otherwise the FNV-1a hex signature. -/
def computeBytesSignatureV2 (v : JSValue) : String :=
  if jsFalsy v then "null"
  else if jsLengthIsZero v then "empty"
  else
    match v with
    | vBytes bs => toHex8 (toUInt32 (bs.foldl fnvStepJS 2166136261))
    | _ => "invalid-type"

/-- Signature strings that are exactly 8 lowercase hex digits. -/
def isHex8 (s : String) : Bool :=
  s.length == 8 ∧ s.data.all (fun c => c ∈ "0123456789abcdef".data)

/-! ## Structural PDF validator -/

/-- Verdict record of `validatePDFBytes`:
`{ isValid: boolean; error?: string }`. -/
structure PdfVerdict where
  isValid : Bool
  error : Option String
deriving DecidableEq, Repr

/-- Source error string for the `"empty"` failure class. -/
def reasonEmpty : String := "No PDF data available"

/-- Source error string for the `"too-small"` failure class. -/
def reasonTooSmall : String := "PDF file is too small to be valid"

/-- Source error string for the `"missing-header"` failure class. -/
def reasonMissingHeader : String :=
  "Invalid PDF file: missing PDF header. The file may be corrupted or not a valid PDF."

/-- Source error string for the `"missing-trailer"` failure class. -/
def reasonMissingTrailer : String :=
  "Invalid PDF file: missing EOF marker. The file may be incomplete or corrupted."

/-- The 5-byte magic header `%PDF-`. -/
def pdfHeaderBytes : List Nat := [37, 80, 68, 70, 45]

/-- The 5-byte trailer marker `%%EOF`. -/
def eofMarkerBytes : List Nat := [37, 37, 69, 79, 70]

/-- The loop body test of the trailer scan: bytes `i .. i+4` of `bs`
equal the `%%EOF` marker (the `take 5` equality also forces
`i + 5 ≤ bs.length`, as the source's index accesses do inside the loop
bounds). -/
def markerAt (bs : List Nat) (i : Nat) : Bool :=
  (bs.drop i).take 5 == eofMarkerBytes

/-- `validatePDFBytes` from `src/frontend/src/utils/pdfAttachment.ts`
(input `Uint8Array | number[] | undefined`; the `new Uint8Array`
conversion is the `% 256` map; `Math.max(0, length - 1024)` is the
truncated `Nat` subtraction; the scan loop
`for (i = searchStart; i < length - 4; i++)` is the `any` over
`List.range'`). -/
def validatePDFBytes (bytes : Option (List Nat)) : PdfVerdict :=
  match bytes with
  | none => ⟨false, some reasonEmpty⟩
  | some bs₀ =>
    if bs₀.length = 0 then ⟨false, some reasonEmpty⟩
    else
      let bs := bs₀.map (· % 256)
      if bs.length < 100 then ⟨false, some reasonTooSmall⟩
      else if ¬ (bs.take 5 = pdfHeaderBytes) then ⟨false, some reasonMissingHeader⟩
      else
        let searchStart := bs.length - 1024
        let hasEOF :=
          (List.range' searchStart (bs.length - 4 - searchStart)).any (markerAt bs)
        if ¬ hasEOF then ⟨false, some reasonMissingTrailer⟩
        else ⟨true, none⟩

/-- `String.fromCharCode(...)` over byte values: each byte (0–255)
becomes one UTF-16 code unit. -/
def charsOf (bs : List Nat) : List Char := bs.map Char.ofNat

/-- JS `haystack.includes(pattern)`: the pattern occurs at some char
offset. -/
def strIncludes (hay pat : List Char) : Bool :=
  (List.range (hay.length + 1)).any (fun j => (hay.drop j).take pat.length == pat)

/-- JS `s.startsWith(pat)`. -/
def strStartsWith (s pat : List Char) : Bool := s.take pat.length == pat

/-- `isPdfValid` from the unnamed `pdfAttachment` iteration
(`src/unnamed/part_004`): decoded-string header test and `%%EOF`
substring search over the last `min(length, 1024)` bytes. -/
def isPdfValid (bs : List Nat) : Bool :=
  if bs.length = 0 then false
  else
    let header := charsOf (bs.take 5)
    if ¬ strStartsWith header "%PDF-".data then false
    else
      let searchStart := bs.length - 1024
      let endSection := charsOf (bs.drop searchStart)
      strIncludes endSection "%%EOF".data

/-- The claim's trailer condition, in its own words: the 5-byte trailer
marker occurs at some byte offset within the last
`min(length, 1024)` bytes. -/
def specHasTrailer (bs : List Nat) : Bool :=
  (List.range bs.length).any (fun i =>
    decide (bs.length - min bs.length 1024 ≤ i) && markerAt bs i)

/-- The claim's verdict cascade, stated from its words (for comparison
with the embedded `validatePDFBytes`): empty, too-small (below 100),
missing-header (first 5 bytes), missing-trailer (window scan), else
valid. -/
def pdfVerdictSpec (bs : List Nat) : PdfVerdict :=
  if bs.length = 0 then ⟨false, some reasonEmpty⟩
  else if bs.length < 100 then ⟨false, some reasonTooSmall⟩
  else if ¬ (bs.take 5 = pdfHeaderBytes) then ⟨false, some reasonMissingHeader⟩
  else if ¬ specHasTrailer bs then ⟨false, some reasonMissingTrailer⟩
  else ⟨true, none⟩

/-! ## Wire optional decoder and byte canonicalizer -/

/-- `obj.__kind__ === s` (strict string comparison). -/
def kindIs (fs : List (String × JSValue)) (s : String) : Bool :=
  match getField fs "__kind__" with
  | vStr t => t == s
  | _ => false

/-- `unwrapOptional` from the third iteration of
`src/frontend/src/utils/applicationStatusNormalization.ts`
(lines 121–154).  The second component records whether the
`console.warn` diagnostic for an over-long array fired. -/
def unwrapOptional : JSValue → JSValue × Bool
  | vNull => (vNull, false)
  | vUndefined => (vNull, false)
  | vArr xs =>
    match xs with
    | [] => (vNull, false)
    | [x] => (x, false)
    | _ => (vNull, true)
  | vObj fs =>
    if kindIs fs "None" then (vNull, false)
    else if kindIs fs "Some" then (getField fs "value", false)
    else (vObj fs, false)
  | v => (v, false)

/-- `unwrapCandidOption` from the second iteration (lines 29–45): only
the empty array is recognized as array-encoded `None`; the tagged-record
branch requires the `value` key to be present, otherwise the whole
wrapper falls through to the bare-value return. -/
def unwrapCandidOption (v : JSValue) : JSValue :=
  match v with
  | vNull => vNull
  | vUndefined => vNull
  | vArr [] => vNull
  | vObj fs =>
    if fs.any (fun p => p.1 == "__kind__") then
      if kindIs fs "None" then vNull
      else if kindIs fs "Some" ∧ fs.any (fun p => p.1 == "value") then getField fs "value"
      else vObj fs
    else vObj fs
  | v => v

/-- The JS nullish abstraction used to read a decoder result as an
`Option`: `null` and `undefined` denote absence. -/
def toOption (v : JSValue) : Option JSValue :=
  match v with
  | vNull => none
  | vUndefined => none
  | v => some v

/-- `normalizeBytes` from the second iteration (lines 47–99): falsy
input is rejected; a `Uint8Array` is returned unchanged (also when
empty); an array is wrapped into a `Uint8Array` (elements reduced by
`ToUint8`, also when empty); an object is materialized in
`Object.keys` order whenever it has at least one key and every key
satisfies `!isNaN(Number(key))`; everything else yields `null`. -/
def normalizeBytesV2 (v : JSValue) : Option (List Nat) :=
  if jsFalsy v then none
  else
    match v with
    | vBytes bs => some bs
    | vArr xs => some (xs.map jsToUint8)
    | vObj fs =>
      let keys := objKeys fs
      if keys.all jsIsNumericString ∧ keys.length > 0 then
        some (keys.map (fun k => jsToUint8 (getField fs k)))
      else none
    | _ => none

/-- `normalizeBytes` from the third iteration (lines 159–173): like the
second iteration but empty buffers and empty arrays yield `null`, and
objects are always rejected. -/
def normalizeBytesV3 (v : JSValue) : Option (List Nat) :=
  if jsFalsy v then none
  else
    match v with
    | vBytes bs => if bs.length > 0 then some bs else none
    | vArr xs => if xs.length > 0 then some (xs.map jsToUint8) else none
    | _ => none

/-- JS `String.prototype.trim` (ASCII whitespace suffices for the
strings of this pipeline). -/
def jsTrim (s : String) : String :=
  let isWs := fun c => c = ' ' ∨ c = '\t' ∨ c = '\n' ∨ c = '\r'
  String.mk (((s.data.dropWhile isWs).reverse.dropWhile isWs).reverse)

/-- `normalizeString` from the third iteration (lines 178–183): a
string trimming to non-empty is returned trimmed, all else is `null`. -/
def normalizeStringV3 (v : JSValue) : Option String :=
  match v with
  | vStr s => let t := jsTrim s; if t.length > 0 then some t else none
  | _ => none

/-! ## Attachment assembly (`normalizeApplicationStatusResult`,
`src/unnamed/part_002`; its imports resolve to the third-iteration
helpers `unwrapOptional`, `normalizeBytesV3`, `normalizeStringV3`). -/

/-- The normalized attachment record `PDFData`. -/
structure PDFData where
  filename : String
  contentType : String
  bytes : List Nat
deriving DecidableEq, Repr

/-- The normalized `ApplicationStatus` record; the fields the assembly
merely copies stay wire values. -/
structure NormalizedStatus where
  applicationId : JSValue
  applicantEmail : JSValue
  applicantName : JSValue
  visaType : JSValue
  status : JSValue
  lastUpdated : JSValue
  comments : JSValue
  attachment : Option PDFData

/-- JS `x || d` where `x : string | null` (the empty string and `null`
both select the default). -/
def jsOrString (v : Option String) (d : String) : String :=
  match v with
  | some s => if s = "" then d else s
  | none => d

/-- JS `v || d` on wire values. -/
def jsOrElse (v d : JSValue) : JSValue := if jsTruthy v then v else d

/-- JS `s.toLowerCase()` (charwise; the filenames of this pipeline are
BMP text, where JS and Lean lowercasing agree). -/
def toLowerStr (s : String) : String := String.mk (s.data.map Char.toLower)

/-- JS `s.endsWith(post)`. -/
def endsWithStr (s post : String) : Bool :=
  s.data.reverse.take post.data.length == post.data.reverse

/-- `filename.toLowerCase().endsWith('.pdf') ? filename :
filename + '.pdf'` from `src/unnamed/part_002`, lines 38–40. -/
def ensurePdfExt (s : String) : String :=
  if endsWithStr (toLowerStr s) ".pdf" then s else s ++ ".pdf"

/-- Body of the `if (rawAttachment)` block of
`normalizeApplicationStatusResult` (`src/unnamed/part_002`,
lines 31–50): unwrap and default the sub-fields, and keep the
attachment only when the canonical bytes are non-empty. -/
def normalizeAttachmentInner (rawAttachment : JSValue) : Option PDFData :=
  if ¬ jsTruthy rawAttachment then none
  else
    let filename := ensurePdfExt (jsOrString
      (normalizeStringV3 (unwrapOptional (jsGet rawAttachment "filename")).1)
      "attachment.pdf")
    let contentType := jsOrString
      (normalizeStringV3 (unwrapOptional (jsGet rawAttachment "contentType")).1)
      "application/pdf"
    match normalizeBytesV3 (unwrapOptional (jsGet rawAttachment "bytes")).1 with
    | some bs => if bs.length > 0 then some ⟨filename, contentType, bs⟩ else none
    | none => none

/-- The attachment part of `normalizeApplicationStatusResult`
(`src/unnamed/part_002`, lines 26–51): guard on the raw `attachment`
field, unwrap its optional, then run the inner block. -/
def normalizeAttachmentField (attField : JSValue) : Option PDFData :=
  if ¬ jsTruthy attField then none
  else normalizeAttachmentInner (unwrapOptional attField).1

/-- `normalizeApplicationStatusResult` (`src/unnamed/part_002`,
lines 9–66). -/
def normalizeApplicationStatusResult (raw : JSValue) : Option NormalizedStatus :=
  let unwrapped := (unwrapOptional raw).1
  if ¬ jsTruthy unwrapped then none
  else if ¬ (jsTypeofObject unwrapped ∧ jsHasField unwrapped "applicationId"
      ∧ jsHasField unwrapped "applicantEmail") then none
  else
    some
      { applicationId := jsGet unwrapped "applicationId"
        applicantEmail := jsGet unwrapped "applicantEmail"
        applicantName := jsOrElse (jsGet unwrapped "applicantName") (vStr "")
        visaType := jsOrElse (jsGet unwrapped "visaType") (vStr "")
        status := jsOrElse (jsGet unwrapped "status") (vStr "")
        lastUpdated := jsGet unwrapped "lastUpdated"
        comments := jsOrElse (unwrapOptional (jsGet unwrapped "comments")).1 vUndefined
        attachment := normalizeAttachmentField (jsGet unwrapped "attachment") }

/-! ## Display-resource hooks

Two hooks manage Blob object URLs.  Their React effects are embedded as
state-transition functions; an object URL is modelled by a numeric
resource id drawn from a counter, and the observable platform calls
(`URL.createObjectURL`, `URL.revokeObjectURL`, timer scheduling) are
recorded in the state.  React guarantees the modelled ordering: on a
dependency change the previous effect's cleanup runs, then the new
effect body, back to back; on unmount the cleanups run in declaration
order.  A `setTimeout(_, 2000)` timer cannot fire in between. -/

/-- State of `useBlobObjectUrl` from
`src/frontend/src/hooks/useBlobObjectUrl.ts` (the signature-memoizing
iteration): the committed React state plus instrumentation
(`createdCount` counts `URL.createObjectURL` calls, `revoked` the
revoked ids). -/
structure BlobHookSt where
  objectUrl : Option Nat
  signature : Option String
  nextId : Nat
  createdCount : Nat
  revoked : List Nat
deriving DecidableEq, Repr

/-- Initial hook state (`useState(null)` twice). -/
def blobHookInit : BlobHookSt := ⟨none, none, 0, 0, []⟩

/-- One run of the effect body of
`src/frontend/src/hooks/useBlobObjectUrl.ts` with the committed state
`st` and the current `bytes`/`mimeType` inputs (`none` stands for
`null`/`undefined` bytes; a present buffer is a `Uint8Array`, so the
`instanceof` rejection branch is not reachable in the model).  The
`try`/`catch` around `Blob` creation guards platform failures outside
the model. -/
def useBlobEffect (st : BlobHookSt) (bytes : Option (List Nat)) (mimeType : String) :
    BlobHookSt :=
  match bytes with
  | none => { st with objectUrl := none }
  | some bs =>
    if bs.length = 0 then { st with objectUrl := none }
    else
      let newSig := computeBytesSignature (some bs)
      if st.signature = some newSig then st
      else if mimeType = "application/pdf" ∧ isPdfValid bs = false then
        { st with objectUrl := none, signature := some newSig }
      else
        let revoked :=
          match st.objectUrl with
          | some u => u :: st.revoked
          | none => st.revoked
        { objectUrl := some st.nextId
          signature := some newSig
          nextId := st.nextId + 1
          createdCount := st.createdCount + 1
          revoked := revoked }

/-- State of `useBlobObjectUrl` from `src/unnamed/part_010` (the
deferred-revocation iteration): React state (`url`, `error`,
`signature`), the refs (`timeoutRef` as the pending revocation's target
resource, `previousUrlRef`), the url captured by the cleanup closure
the last effect body returned (`none` when it returned no cleanup), and
instrumentation: `created` lists ids passed to `URL.createObjectURL`,
`revokedNow` ids revoked synchronously inside an effect/cleanup run,
`revokedLater` ids revoked by the 2000 ms timer firing. -/
structure HookSt where
  url : Option Nat
  error : Option String
  signature : String
  timeoutTarget : Option Nat
  previousUrl : Option Nat
  cleanupTarget : Option Nat
  nextId : Nat
  created : List Nat
  revokedNow : List Nat
  revokedLater : List Nat
deriving DecidableEq, Repr

/-- Initial state of the part_010 hook. -/
def hookInit : HookSt := ⟨none, none, "", none, none, none, 0, [], [], []⟩

/-- The cleanup function the part_010 effect returns on its success
path: schedule revocation of the captured url after the 2000 ms grace
delay (`timeoutRef.current = setTimeout(...)`). -/
def runCleanup (st : HookSt) : HookSt :=
  match st.cleanupTarget with
  | some u => { st with timeoutTarget := some u, cleanupTarget := none }
  | none => st

/-- part_010 header validation (`String.fromCharCode` decode of the
first five bytes, then `startsWith('%PDF-')`). -/
def pdfHeaderOkChars (bs : List Nat) : Bool :=
  strStartsWith (charsOf (bs.take 5)) "%PDF-".data

/-- part_010 trailer validation (decoded-string `includes('%%EOF')`
over the last `min(length, 1024)` bytes). -/
def pdfEofOkChars (bs : List Nat) : Bool :=
  strIncludes (charsOf (bs.drop (bs.length - 1024))) "%%EOF".data

/-- The effect body of the part_010 hook (lines 28–178): clear any
pending revocation timer, revoke the previous URL immediately, reset
state, then validate and create a fresh Blob URL. -/
def effectBody (st : HookSt) (bytes : Option (List Nat)) (contentType : Option String) :
    HookSt :=
  let st := { st with timeoutTarget := none }
  let st :=
    match st.previousUrl with
    | some u => { st with revokedNow := u :: st.revokedNow, previousUrl := none }
    | none => st
  let st := { st with url := none, error := none }
  match bytes with
  | none => { st with signature := "empty", cleanupTarget := none }
  | some bs₀ =>
    if bs₀.length = 0 then { st with signature := "empty", cleanupTarget := none }
    else if contentType = none ∨ contentType = some "" then
      { st with
        error := some "Content type is required"
        signature := "no-content-type"
        cleanupTarget := none }
    else
      let bs := bs₀.map (· % 256)
      let newSig := computeBytesSignature (some bs)
      let st := { st with signature := newSig }
      if contentType = some "application/pdf" ∧ pdfHeaderOkChars bs = false then
        { st with error := some "Invalid PDF: Missing PDF header", cleanupTarget := none }
      else if contentType = some "application/pdf" ∧ pdfEofOkChars bs = false then
        { st with
          error := some "Invalid PDF: Missing EOF marker (file may be truncated or corrupted)"
          cleanupTarget := none }
      else
        { st with
          url := some st.nextId
          previousUrl := some st.nextId
          nextId := st.nextId + 1
          created := st.nextId :: st.created
          cleanupTarget := some st.nextId }

/-- A new request arriving at the part_010 hook (its effect
dependencies changed): the previous effect's cleanup runs, then the new
effect body — atomically with respect to the 2000 ms timer. -/
def hookRequest (st : HookSt) (bytes : Option (List Nat)) (ct : Option String) : HookSt :=
  effectBody (runCleanup st) bytes ct

/-- The pending 2000 ms revocation timer fires. -/
def hookTimerFire (st : HookSt) : HookSt :=
  match st.timeoutTarget with
  | some u => { st with revokedLater := u :: st.revokedLater, timeoutTarget := none }
  | none => st

/-- Unmount of the part_010 hook: the main effect's cleanup schedules
the deferred revocation, then the unmount effect's cleanup clears the
timer and revokes the previous URL immediately. -/
def hookUnmount (st : HookSt) : HookSt :=
  let st₁ := runCleanup st
  let st₂ := { st₁ with timeoutTarget := none }
  match st₂.previousUrl with
  | some u => { st₂ with revokedNow := u :: st₂.revokedNow, previousUrl := none }
  | none => st₂

/-- A minimal byte string passing the part_010 hook's header/trailer
validation (`%PDF-` + `%%EOF`; that iteration has no minimum-size
check). -/
def pdfBufA : List Nat := [37, 80, 68, 70, 45, 37, 37, 69, 79, 70]

/-- Like `pdfBufA` with one extra byte, so its content signature
differs. -/
def pdfBufB : List Nat := [37, 80, 68, 70, 45, 0, 37, 37, 69, 79, 70]

/-- A 200-byte structurally valid PDF buffer (header, padding, trailer
at the very end). -/
def pdfBufOk : List Nat := pdfHeaderBytes ++ List.replicate 190 48 ++ eofMarkerBytes

/-! ## Helper lemmas: JS 32-bit arithmetic and hex formatting -/

theorem toNat_charOfNat {b : Nat} (h : b < 256) : (Char.ofNat b).toNat = b := by
  have hv : b.isValidChar := Or.inl (by omega)
  simp [Char.ofNat, hv, Char.ofNatAux, Char.toNat]
  rfl

theorem toUInt32_lt (n : Int) : toUInt32 n < 4294967296 := by
  unfold toUInt32; omega

theorem toUInt32_toInt32 (n : Int) : toUInt32 (toInt32 n) = toUInt32 n := by
  unfold toUInt32 toInt32
  by_cases hc : n % 4294967296 < 2147483648
  · simp only [hc, if_pos]
    omega
  · simp only [hc, if_neg, not_false_iff]
    omega

theorem toUInt32_ofNat {n : Nat} (h : n < 4294967296) : toUInt32 (Int.ofNat n) = n := by
  unfold toUInt32
  simp only [Int.ofNat_eq_coe]
  omega

theorem toUInt32_jsXor (a b : Int) :
    toUInt32 (jsXor a b) = (toUInt32 a) ^^^ (toUInt32 b) := by
  unfold jsXor
  rw [toUInt32_toInt32]
  have hx : (toUInt32 a) ^^^ (toUInt32 b) < 4294967296 := by
    have h1 := toUInt32_lt a
    have h2 := toUInt32_lt b
    have h3 := Nat.xor_lt_two_pow (x := toUInt32 a) (y := toUInt32 b) (n := 32)
      (by omega) (by omega)
    omega
  exact toUInt32_ofNat hx

theorem toUInt32_jsImul (a b : Int) :
    toUInt32 (jsImul a b) = (toUInt32 a * toUInt32 b) % 4294967296 := by
  unfold jsImul
  rw [toUInt32_toInt32]
  exact toUInt32_ofNat (Nat.mod_lt _ (by norm_num))

theorem toUInt32_fnvStepJS (a : Int) {b : Nat} (hb : b < 256) :
    toUInt32 (fnvStepJS a b) = ((toUInt32 a ^^^ b) * 16777619) % 4294967296 := by
  unfold fnvStepJS
  rw [toUInt32_jsImul, toUInt32_jsXor, toUInt32_ofNat (by omega : b < 4294967296)]
  have : toUInt32 (16777619 : Int) = 16777619 := by unfold toUInt32; decide
  rw [this]

theorem fnv_fold (bs : List Nat) (hbs : ∀ b ∈ bs, b < 256) (a : Int) :
    toUInt32 (bs.foldl fnvStepJS a) =
      bs.foldl (fun h b => ((h ^^^ b) * 16777619) % 4294967296) (toUInt32 a) := by
  induction bs generalizing a with
  | nil => rfl
  | cons b bs ih =>
    simp only [List.foldl_cons]
    rw [ih (fun x hx => hbs x (List.mem_cons_of_mem _ hx)),
      toUInt32_fnvStepJS a (hbs b (List.mem_cons_self _ _))]

theorem fnv1aRef_lt (bs : List Nat) : fnv1aRef bs < 4294967296 := by
  unfold fnv1aRef
  have : ∀ (l : List Nat) (a : Nat), a < 4294967296 →
      l.foldl (fun h b => ((h ^^^ b) * 16777619) % 4294967296) a < 4294967296 := by
    intro l
    induction l with
    | nil => intro a ha; exact ha
    | cons x xs ih =>
      intro a ha
      exact ih _ (Nat.mod_lt _ (by norm_num))
  exact this bs 2166136261 (by norm_num)

theorem computeBytesSignature_eq_ref (bs : List Nat) (hne : bs ≠ [])
    (hbs : ∀ b ∈ bs, b < 256) :
    computeBytesSignature (some bs) = toHex8 (fnv1aRef bs) := by
  unfold computeBytesSignature
  have hlen : bs.length ≠ 0 := by
    intro h; exact hne (List.length_eq_zero.mp h)
  simp only [hlen, if_neg, not_false_iff]
  have hmap : bs.map (· % 256) = bs := by
    conv_rhs => rw [← List.map_id bs]
    exact List.map_congr_left (fun b hb => Nat.mod_eq_of_lt (hbs b hb))
  rw [hmap, fnv_fold bs hbs]
  have h0 : toUInt32 (2166136261 : Int) = 2166136261 := by unfold toUInt32; decide
  rw [h0]
  rfl

theorem natToHexAux_length (k n : Nat) : (natToHexAux k n).length = k := by
  induction k generalizing n with
  | zero => rfl
  | succ k ih => simp [natToHexAux, ih]

theorem hexCharVal_hexDigitChar : ∀ m, m < 16 → hexCharVal (hexDigitChar m) = m := by
  decide

theorem hexDigitChar_mem : ∀ m, m < 16 → hexDigitChar m ∈ "0123456789abcdef".data := by
  decide

theorem natToHexAux_parse (k : Nat) :
    ∀ n, n < 16 ^ k →
      (natToHexAux k n).foldl (fun a c => a * 16 + hexCharVal c) 0 = n := by
  induction k with
  | zero => intro n hn; interval_cases n; rfl
  | succ k ih =>
    intro n hn
    have hdiv : n / 16 < 16 ^ k := by
      rw [Nat.div_lt_iff_lt_mul (by norm_num)]
      calc n < 16 ^ (k + 1) := hn
        _ = 16 ^ k * 16 := by ring
    simp only [natToHexAux, List.foldl_append, List.foldl_cons, List.foldl_nil]
    rw [ih (n / 16) hdiv, hexCharVal_hexDigitChar (n % 16) (Nat.mod_lt _ (by norm_num))]
    omega

theorem natToHexAux_chars (k : Nat) :
    ∀ n c, c ∈ natToHexAux k n → c ∈ "0123456789abcdef".data := by
  induction k with
  | zero => intro n c hc; cases hc
  | succ k ih =>
    intro n c hc
    simp only [natToHexAux, List.mem_append, List.mem_singleton] at hc
    rcases hc with hc | hc
    · exact ih _ _ hc
    · rw [hc]; exact hexDigitChar_mem _ (Nat.mod_lt _ (by norm_num))

theorem hexToNat_toHex8 {n : Nat} (h : n < 4294967296) : hexToNat (toHex8 n) = n := by
  unfold hexToNat toHex8
  have : (String.mk (natToHexAux 8 n)).data = natToHexAux 8 n := rfl
  rw [this]
  exact natToHexAux_parse 8 n (by norm_num at h ⊢; omega)

theorem isHex8_toHex8 (n : Nat) : isHex8 (toHex8 n) = true := by
  unfold isHex8 toHex8
  simp only [decide_eq_true_eq]
  constructor
  · show (String.mk (natToHexAux 8 n)).length == 8
    have : (String.mk (natToHexAux 8 n)).length = (natToHexAux 8 n).length := rfl
    simp [this, natToHexAux_length]
  · rw [List.all_eq_true]
    intro c hc
    simp only [decide_eq_true_eq]
    exact natToHexAux_chars 8 n c hc

/-! ## Helper lemmas: trailer scans and decoded-string searches -/

theorem markerAt_len {bs : List Nat} {i : Nat} (h : markerAt bs i = true) :
    i + 5 ≤ bs.length := by
  unfold markerAt at h
  rw [beq_iff_eq] at h
  have hl := congrArg List.length h
  simp only [List.length_take, List.length_drop] at hl
  have : eofMarkerBytes.length = 5 := rfl
  rw [this] at hl
  omega

theorem range'_scan_iff (bs : List Nat) :
    (List.range' (bs.length - 1024) (bs.length - 4 - (bs.length - 1024))).any (markerAt bs)
        = true
      ↔ ∃ i, bs.length - 1024 ≤ i ∧ markerAt bs i = true := by
  rw [List.any_eq_true]
  constructor
  · rintro ⟨i, hi, hm⟩
    rw [List.mem_range'_1] at hi
    exact ⟨i, hi.1, hm⟩
  · rintro ⟨i, hs, hm⟩
    refine ⟨i, ?_, hm⟩
    rw [List.mem_range'_1]
    have h5 := markerAt_len hm
    constructor
    · exact hs
    · omega

theorem specHasTrailer_iff (bs : List Nat) :
    specHasTrailer bs = true ↔ ∃ i, bs.length - 1024 ≤ i ∧ markerAt bs i = true := by
  unfold specHasTrailer
  rw [List.any_eq_true]
  constructor
  · rintro ⟨i, hi, hm⟩
    rw [Bool.and_eq_true, decide_eq_true_eq] at hm
    exact ⟨i, by omega, hm.2⟩
  · rintro ⟨i, hs, hm⟩
    have h5 := markerAt_len hm
    refine ⟨i, List.mem_range.mpr (by omega), ?_⟩
    rw [Bool.and_eq_true, decide_eq_true_eq]
    exact ⟨by omega, hm⟩

theorem scan_forms_eq (bs : List Nat) :
    ((List.range' (bs.length - 1024) (bs.length - 4 - (bs.length - 1024))).any (markerAt bs))
      = specHasTrailer bs := by
  have h1 := range'_scan_iff bs
  have h2 := specHasTrailer_iff bs
  by_cases hx : ∃ i, bs.length - 1024 ≤ i ∧ markerAt bs i = true
  · rw [h1.mpr hx, h2.mpr hx]
  · rw [Bool.eq_iff_iff, h1, h2]

theorem validatePDFBytes_spec_eq (bs : List Nat) (hbs : ∀ b ∈ bs, b < 256) :
    validatePDFBytes (some bs) = pdfVerdictSpec bs := by
  unfold validatePDFBytes pdfVerdictSpec
  have hmap : bs.map (· % 256) = bs := by
    conv_rhs => rw [← List.map_id bs]
    exact List.map_congr_left (fun b hb => Nat.mod_eq_of_lt (hbs b hb))
  simp only [hmap, scan_forms_eq]

theorem map_charOfNat_inj {xs ys : List Nat} (hx : ∀ b ∈ xs, b < 256)
    (hy : ∀ b ∈ ys, b < 256) :
    xs.map Char.ofNat = ys.map Char.ofNat ↔ xs = ys := by
  constructor
  · intro h
    have hxid : (xs.map Char.ofNat).map Char.toNat = xs := by
      rw [List.map_map]
      conv_rhs => rw [← List.map_id xs]
      exact List.map_congr_left (fun b hb => toNat_charOfNat (hx b hb))
    have hyid : (ys.map Char.ofNat).map Char.toNat = ys := by
      rw [List.map_map]
      conv_rhs => rw [← List.map_id ys]
      exact List.map_congr_left (fun b hb => toNat_charOfNat (hy b hb))
    rw [← hxid, ← hyid, h]
  · intro h; rw [h]

theorem strIncludes_iff (hay pat : List Char) (hne : pat ≠ []) :
    strIncludes hay pat = true ↔ ∃ j, (hay.drop j).take pat.length = pat := by
  unfold strIncludes
  rw [List.any_eq_true]
  constructor
  · rintro ⟨j, _, hm⟩
    exact ⟨j, beq_iff_eq.mp hm⟩
  · rintro ⟨j, hm⟩
    refine ⟨j, List.mem_range.mpr ?_, beq_iff_eq.mpr hm⟩
    have hl := congrArg List.length hm
    simp only [List.length_take, List.length_drop] at hl
    have hp : 0 < pat.length := List.length_pos.mpr hne
    omega

theorem charsOf_take_drop (bs : List Nat) (j k : Nat) :
    ((charsOf bs).drop j).take k = charsOf ((bs.drop j).take k) := by
  unfold charsOf
  rw [← List.map_drop, ← List.map_take]

theorem eofChars : "%%EOF".data = charsOf eofMarkerBytes := by decide

theorem pdfChars : "%PDF-".data = charsOf pdfHeaderBytes := by decide

theorem charIncludes_iff_bytes (w : List Nat) (hw : ∀ b ∈ w, b < 256) :
    strIncludes (charsOf w) "%%EOF".data = true ↔ ∃ j, markerAt w j = true := by
  rw [strIncludes_iff _ _ (by decide)]
  have hlen : ("%%EOF".data).length = 5 := by decide
  have hsub : ∀ j : Nat, ∀ b ∈ (w.drop j).take 5, b < 256 := fun j b hb =>
    hw b (List.mem_of_mem_drop (List.mem_of_mem_take hb))
  constructor
  · rintro ⟨j, hm⟩
    rw [hlen, charsOf_take_drop, eofChars] at hm
    refine ⟨j, ?_⟩
    unfold markerAt
    rw [beq_iff_eq]
    exact (map_charOfNat_inj (hsub j) (by decide)).mp hm
  · rintro ⟨j, hm⟩
    unfold markerAt at hm
    rw [beq_iff_eq] at hm
    refine ⟨j, ?_⟩
    rw [hlen, charsOf_take_drop, eofChars]
    exact (map_charOfNat_inj (hsub j) (by decide)).mpr hm

theorem strStartsWith_iff_bytes (bs : List Nat) (hw : ∀ b ∈ bs, b < 256) :
    strStartsWith (charsOf (bs.take 5)) "%PDF-".data = true ↔ bs.take 5 = pdfHeaderBytes := by
  unfold strStartsWith
  rw [beq_iff_eq]
  have hlen : ("%PDF-".data).length = 5 := by decide
  rw [hlen]
  have h1 : (charsOf (bs.take 5)).take 5 = charsOf ((bs.take 5).take 5) := by
    unfold charsOf; rw [← List.map_take]
  rw [h1, List.take_take, Nat.min_self, pdfChars]
  exact map_charOfNat_inj (fun b hb => hw b (List.mem_of_mem_take hb)) (by decide)

theorem markerAt_drop (bs : List Nat) (s j : Nat) :
    markerAt (bs.drop s) j = markerAt bs (s + j) := by
  unfold markerAt
  rw [List.drop_drop]

theorem window_scan_char_eq_byte (bs : List Nat) (hbs : ∀ b ∈ bs, b < 256) :
    strIncludes (charsOf (bs.drop (bs.length - 1024))) "%%EOF".data = specHasTrailer bs := by
  rw [Bool.eq_iff_iff]
  rw [charIncludes_iff_bytes _ (fun b hb => hbs b (List.mem_of_mem_drop hb))]
  rw [specHasTrailer_iff]
  constructor
  · rintro ⟨j, hm⟩
    rw [markerAt_drop] at hm
    exact ⟨bs.length - 1024 + j, by omega, hm⟩
  · rintro ⟨i, hs, hm⟩
    refine ⟨i - (bs.length - 1024), ?_⟩
    rw [markerAt_drop]
    have : bs.length - 1024 + (i - (bs.length - 1024)) = i := by omega
    rw [this]
    exact hm

theorem isPdfValid_iff (bs : List Nat) (hbs : ∀ b ∈ bs, b < 256) :
    isPdfValid bs = true ↔
      (bs.length ≠ 0 ∧ bs.take 5 = pdfHeaderBytes ∧ specHasTrailer bs = true) := by
  unfold isPdfValid
  by_cases h0 : bs.length = 0
  · simp [h0]
  · simp only [h0, if_neg, not_false_iff, ne_eq]
    by_cases hh : strStartsWith (charsOf (bs.take 5)) "%PDF-".data = true
    · have hh2 := (strStartsWith_iff_bytes bs hbs).mp hh
      simp only [hh, not_true, if_neg, not_false_iff, if_false]
      rw [window_scan_char_eq_byte bs hbs]
      simp [hh2, h0]
    · have hh2 : ¬ bs.take 5 = pdfHeaderBytes := fun hc =>
        hh ((strStartsWith_iff_bytes bs hbs).mpr hc)
      simp only [Bool.not_eq_true] at hh
      simp [hh, hh2]

theorem spec_isValid_iff (bs : List Nat) :
    (pdfVerdictSpec bs).isValid = true ↔
      (bs.length ≠ 0 ∧ ¬ bs.length < 100 ∧ bs.take 5 = pdfHeaderBytes
        ∧ specHasTrailer bs = true) := by
  unfold pdfVerdictSpec
  split_ifs with h0 h100 hhd htr <;> simp_all

/-! ## Helper lemmas: decoder, canonicalizer, assembly, hooks -/

theorem kindIs_some_not_none {fs : List (String × JSValue)} (h : kindIs fs "Some" = true) :
    kindIs fs "None" = false := by
  unfold kindIs at h ⊢
  split at h
  · rename_i t hg
    rw [beq_iff_eq] at h
    subst h
    decide
  · exact absurd h (by decide)

theorem normalizeBytesV2_obj (fs : List (String × JSValue)) :
    normalizeBytesV2 (vObj fs) =
      (if (objKeys fs).all jsIsNumericString ∧ (objKeys fs).length > 0
       then some ((objKeys fs).map (fun k => jsToUint8 (getField fs k))) else none) := rfl

theorem string_ne_empty_of_data {s : String} (h : s.data ≠ []) : s ≠ "" := by
  intro hc
  rw [hc] at h
  exact h rfl

theorem jsOrString_ne_empty (v : Option String) (d : String) (hd : d ≠ "") :
    jsOrString v d ≠ "" := by
  unfold jsOrString
  cases v with
  | none => exact hd
  | some s =>
    by_cases h : s = ""
    · simp [h]; exact hd
    · simp [h]

theorem endsWithStr_append_pdf (s : String) :
    endsWithStr (toLowerStr (s ++ ".pdf")) ".pdf" = true := by
  unfold endsWithStr toLowerStr
  rw [beq_iff_eq]
  show ((s.data ++ ".pdf".data).map Char.toLower).reverse.take (".pdf".data.length)
    = ".pdf".data.reverse
  rw [List.map_append, List.reverse_append]
  have hlow : ".pdf".data.map Char.toLower = ".pdf".data := by decide
  rw [hlow]
  exact List.take_left' rfl

theorem ensurePdfExt_endsWith (s : String) :
    endsWithStr (toLowerStr (ensurePdfExt s)) ".pdf" = true := by
  unfold ensurePdfExt
  by_cases h : endsWithStr (toLowerStr s) ".pdf" = true
  · rw [if_pos h]; exact h
  · rw [if_neg h]; exact endsWithStr_append_pdf s

theorem ensurePdfExt_ne_empty (s : String) (hs : s ≠ "") : ensurePdfExt s ≠ "" := by
  unfold ensurePdfExt
  by_cases h : endsWithStr (toLowerStr s) ".pdf" = true
  · rw [if_pos h]; exact hs
  · rw [if_neg h]
    apply string_ne_empty_of_data
    rw [String.data_append]
    simp

theorem useBlobEffect_idem (st : BlobHookSt) (bytes : Option (List Nat)) (mt : String) :
    useBlobEffect (useBlobEffect st bytes mt) bytes mt = useBlobEffect st bytes mt := by
  unfold useBlobEffect
  cases bytes with
  | none => rfl
  | some bs =>
    by_cases h0 : bs.length = 0
    · simp [h0]
    · simp only [h0, if_neg, not_false_iff, if_false]
      by_cases hsig : st.signature = some (computeBytesSignature (some bs))
      · simp [hsig]
      · simp only [hsig, if_neg, not_false_iff, if_false]
        by_cases hval : mt = "application/pdf" ∧ isPdfValid bs = false
        · simp [hval]
        · simp [hval]

theorem runCleanup_previousUrl (st : HookSt) : (runCleanup st).previousUrl = st.previousUrl := by
  unfold runCleanup
  cases hc : st.cleanupTarget <;> rfl

theorem runCleanup_created (st : HookSt) : (runCleanup st).created = st.created := by
  unfold runCleanup
  cases hc : st.cleanupTarget <;> rfl

theorem runCleanup_nextId (st : HookSt) : (runCleanup st).nextId = st.nextId := by
  unfold runCleanup
  cases hc : st.cleanupTarget <;> rfl

theorem effectBody_timeoutTarget (st : HookSt) (b : Option (List Nat)) (c : Option String) :
    (effectBody st b c).timeoutTarget = none := by
  simp only [effectBody]
  cases hp : st.previousUrl <;> split <;> first
  | rfl
  | (split_ifs <;> rfl)

theorem effectBody_revokes_previous (st : HookSt) (b : Option (List Nat)) (c : Option String)
    (u : Nat) (hu : st.previousUrl = some u) :
    u ∈ (effectBody st b c).revokedNow := by
  simp only [effectBody, hu]
  split <;> first
  | exact List.mem_cons_self _ _
  | (split_ifs <;> exact List.mem_cons_self _ _)

theorem effectBody_creates (st : HookSt) (bs : List Nat) (c : String)
    (hne : bs ≠ []) (hc : c ≠ "")
    (hv : c = "application/pdf" →
      pdfHeaderOkChars (bs.map (· % 256)) = true ∧ pdfEofOkChars (bs.map (· % 256)) = true) :
    (effectBody st (some bs) (some c)).created = st.nextId :: st.created
    ∧ (effectBody st (some bs) (some c)).url = some st.nextId := by
  have h0 : ¬ bs.length = 0 := fun h => hne (List.length_eq_zero.mp h)
  by_cases hcp : c = "application/pdf"
  · obtain ⟨hh, he⟩ := hv hcp
    subst hcp
    simp only [effectBody]
    cases hp : st.previousUrl <;> simp [h0, hh, he]
  · simp only [effectBody]
    cases hp : st.previousUrl <;> simp [h0, hc, hcp]

theorem hookUnmount_timeoutTarget (st : HookSt) : (hookUnmount st).timeoutTarget = none := by
  unfold hookUnmount
  cases hp : (runCleanup st).previousUrl <;> simp [hp]

theorem hookUnmount_revokes_previous (st : HookSt) (u : Nat) (hu : st.previousUrl = some u) :
    u ∈ (hookUnmount st).revokedNow := by
  unfold hookUnmount
  have hp : (runCleanup st).previousUrl = some u := by rw [runCleanup_previousUrl, hu]
  simp only [hp]
  exact List.mem_cons_self _ _

theorem normalizeAttachmentInner_invariant (raw : JSValue) (att : PDFData)
    (h : normalizeAttachmentInner raw = some att) :
    att.bytes ≠ [] ∧ att.filename ≠ ""
    ∧ endsWithStr (toLowerStr att.filename) ".pdf" = true
    ∧ att.contentType ≠ "" := by
  unfold normalizeAttachmentInner at h
  by_cases h1 : jsTruthy raw = true
  · rw [if_neg (not_not_intro h1)] at h
    split at h
    · rename_i bs hm
      split at h
      · rename_i hlen
        have hatt := (Option.some.inj h).symm
        subst hatt
        refine ⟨List.ne_nil_of_length_pos hlen, ?_, ?_, ?_⟩
        · exact ensurePdfExt_ne_empty _ (jsOrString_ne_empty _ _ (by decide))
        · exact ensurePdfExt_endsWith _
        · exact jsOrString_ne_empty _ _ (by decide)
      · exact absurd h (by simp)
    · exact absurd h (by simp)
  · rw [if_pos (by simp [h1])] at h
    exact absurd h (by simp)

theorem normalizeAttachmentInner_empty (raw : JSValue)
    (h : ∀ bs, normalizeBytesV3 ((unwrapOptional (jsGet raw "bytes")).1) = some bs → bs = []) :
    normalizeAttachmentInner raw = none := by
  unfold normalizeAttachmentInner
  by_cases h1 : jsTruthy raw = true
  · rw [if_neg (not_not_intro h1)]
    split
    · rename_i bs hm
      have hb := h bs hm
      subst hb
      rw [if_neg (by simp)]
    · rfl
  · rw [if_pos (by simp [h1])]

theorem normalizeAttachmentInner_defaults (raw : JSValue) (att : PDFData)
    (h : normalizeAttachmentInner raw = some att) :
    (normalizeStringV3 ((unwrapOptional (jsGet raw "filename")).1) = none →
      att.filename = "attachment.pdf")
    ∧ (normalizeStringV3 ((unwrapOptional (jsGet raw "contentType")).1) = none →
      att.contentType = "application/pdf") := by
  unfold normalizeAttachmentInner at h
  by_cases h1 : jsTruthy raw = true
  · rw [if_neg (not_not_intro h1)] at h
    split at h
    · rename_i bs hm
      split at h
      · have hatt := (Option.some.inj h).symm
        subst hatt
        constructor
        · intro hfn
          show ensurePdfExt (jsOrString _ "attachment.pdf") = "attachment.pdf"
          rw [hfn]
          decide
        · intro hct
          show jsOrString _ "application/pdf" = "application/pdf"
          rw [hct]
          rfl
      · exact absurd h (by simp)
    · exact absurd h (by simp)
  · rw [if_pos (by simp [h1])] at h
    exact absurd h (by simp)

theorem normalizeAttachmentField_cases (v : JSValue) :
    normalizeAttachmentField v = none
    ∨ normalizeAttachmentField v = normalizeAttachmentInner (unwrapOptional v).1 := by
  unfold normalizeAttachmentField
  by_cases h1 : jsTruthy v = true
  · rw [if_neg (not_not_intro h1)]
    exact Or.inr rfl
  · rw [if_pos (by simp [h1])]
    exact Or.inl rfl

theorem normalizeStatus_attachment (raw : JSValue) (st : NormalizedStatus)
    (h : normalizeApplicationStatusResult raw = some st) :
    st.attachment = normalizeAttachmentField (jsGet ((unwrapOptional raw).1) "attachment") := by
  simp only [normalizeApplicationStatusResult] at h
  split_ifs at h
  have hst := (Option.some.inj h).symm
  subst hst
  rfl

/-! ## Claim theorems -/

/-- Claim C1 — Content-addressed cache reuse: running the
signature-memoizing `useBlobObjectUrl` effect a second time with
byte-identical content (as happens when a logically distinct buffer
instance with the same bytes re-triggers the effect) is a no-op: the
state (hence the held resource or error) is unchanged, the
resource-creation count does not increase, and the recorded content
signature is the same.  Hypothesis-free: holds for every hook state,
byte content and MIME type. -/
theorem C1_content_addressed_reuse (st : BlobHookSt) (bytes : Option (List Nat)) (mt : String) :
    useBlobEffect (useBlobEffect st bytes mt) bytes mt = useBlobEffect st bytes mt
    ∧ (useBlobEffect (useBlobEffect st bytes mt) bytes mt).createdCount
        = (useBlobEffect st bytes mt).createdCount
    ∧ (useBlobEffect (useBlobEffect st bytes mt) bytes mt).signature
        = (useBlobEffect st bytes mt).signature := by
  have h := useBlobEffect_idem st bytes mt
  exact ⟨h, by rw [h], by rw [h]⟩

/-- Claim C2, counterexample: in the part_010 hook, after a resource is
created for `pdfBufA` and a request with different-signature content
`pdfBufB` supersedes it, the old resource (id 0) is revoked
synchronously during the supersession (`revokedNow = [0]`) and no
revocation timer remains pending (`timeoutTarget = none`, and nothing
was ever revoked by a timer) — contradicting the claim that the old
resource is never revoked immediately and that its revocation timer
proceeds unmodified when the new signature differs. -/
theorem C2_counterexample :
    (hookRequest hookInit (some pdfBufA) (some "application/pdf")).url = some 0
    ∧ (hookRequest hookInit (some pdfBufA) (some "application/pdf")).cleanupTarget = some 0
    ∧ computeBytesSignature (some pdfBufA) ≠ computeBytesSignature (some pdfBufB)
    ∧ (hookRequest (hookRequest hookInit (some pdfBufA) (some "application/pdf"))
        (some pdfBufB) (some "application/pdf")).revokedNow = [0]
    ∧ (hookRequest (hookRequest hookInit (some pdfBufA) (some "application/pdf"))
        (some pdfBufB) (some "application/pdf")).timeoutTarget = none
    ∧ (hookRequest (hookRequest hookInit (some pdfBufA) (some "application/pdf"))
        (some pdfBufB) (some "application/pdf")).url = some 1
    ∧ (hookRequest (hookRequest hookInit (some pdfBufA) (some "application/pdf"))
        (some pdfBufB) (some "application/pdf")).revokedLater = [] := by
  refine ⟨by decide, by decide, by decide, by decide, by decide, by decide, by decide⟩

/-- Claim C2 as amended — Deferred revocation policy of the part_010
hook as implemented: the effect cleanup does schedule revocation of the
current resource after the fixed 2000 ms grace delay; but every
subsequent request cancels any pending revocation unconditionally
(regardless of signature) and revokes the previous resource
immediately; unmount likewise cancels the timer and revokes
immediately; and a new resource is created for every valid non-empty
request, with no signature-based reuse or timer preservation. -/
theorem C2_revocation_policy (st : HookSt) (bytes : Option (List Nat)) (ct : Option String) :
    (∀ u, st.cleanupTarget = some u → (runCleanup st).timeoutTarget = some u)
    ∧ (hookRequest st bytes ct).timeoutTarget = none
    ∧ (∀ u, st.previousUrl = some u → u ∈ (hookRequest st bytes ct).revokedNow)
    ∧ (hookUnmount st).timeoutTarget = none
    ∧ (∀ u, st.previousUrl = some u → u ∈ (hookUnmount st).revokedNow)
    ∧ (∀ bs c, bytes = some bs → bs ≠ [] → ct = some c → c ≠ "" →
        (c = "application/pdf" →
          pdfHeaderOkChars (bs.map (· % 256)) = true
          ∧ pdfEofOkChars (bs.map (· % 256)) = true) →
        (hookRequest st bytes ct).created = st.nextId :: st.created
        ∧ (hookRequest st bytes ct).url = some st.nextId) := by
  refine ⟨?_, ?_, ?_, hookUnmount_timeoutTarget st, hookUnmount_revokes_previous st, ?_⟩
  · intro u hu
    unfold runCleanup
    simp [hu]
  · exact effectBody_timeoutTarget (runCleanup st) bytes ct
  · intro u hu
    exact effectBody_revokes_previous (runCleanup st) bytes ct u
      (by rw [runCleanup_previousUrl, hu])
  · intro bs c hb hne hct hc hv
    subst hb
    subst hct
    have h := effectBody_creates (runCleanup st) bs c hne hc hv
    unfold hookRequest
    rw [runCleanup_created, runCleanup_nextId] at h
    exact h

/-- Claim C2 witness: the amended theorem applied at the concrete
supersession trace of the counterexample. -/
theorem C2_revocation_policy_witness :
    0 ∈ (hookRequest (hookRequest hookInit (some pdfBufA) (some "application/pdf"))
      (some pdfBufB) (some "application/pdf")).revokedNow :=
  (C2_revocation_policy (hookRequest hookInit (some pdfBufA) (some "application/pdf"))
    (some pdfBufB) (some "application/pdf")).2.2.1 0 (by decide)

/-- Claim C3 — Structural validator verdict: for every byte buffer the
embedded `validatePDFBytes` equals the claim's cascade
(`pdfVerdictSpec`): reason `"empty"` (source string `reasonEmpty`) for
length 0, `"too-small"` (`reasonTooSmall`) below 100 bytes,
`"missing-header"` (`reasonMissingHeader`) when the first five bytes
are not `%PDF-`, `"missing-trailer"` (`reasonMissingTrailer`) when the
marker occurs at no byte offset of the last `min(length, 1024)` bytes,
else valid — in that order; in particular a 50-byte buffer is
too-small and a header-correct 200-byte buffer with `%%EOF` at the very
end is valid. -/
theorem C3_validator_verdict (bs : List Nat) (hbs : ∀ b ∈ bs, b < 256) :
    validatePDFBytes (some bs) = pdfVerdictSpec bs
    ∧ validatePDFBytes (some (List.replicate 50 0)) = ⟨false, some reasonTooSmall⟩
    ∧ validatePDFBytes (some pdfBufOk) = ⟨true, none⟩ := by
  refine ⟨validatePDFBytes_spec_eq bs hbs, by decide, by decide⟩

/-- Claim C3 witness: the verdict equation evaluated at the concrete
200-byte valid buffer. -/
theorem C3_validator_verdict_witness :
    validatePDFBytes (some pdfBufOk) = pdfVerdictSpec pdfBufOk :=
  (C3_validator_verdict pdfBufOk (by decide)).1

/-- Claim C4 — Wire optional decoder mapping and totality (the decoder
is a total Lean function by construction, so it never raises):
`unwrapOptional` maps `null`/`undefined` to `null`; the empty array to
`null`; a singleton array to its element; a longer array to `null`
with the logged diagnostic (second component `true`); a tagged record
whose `__kind__` is `"None"` to `null`; one whose `__kind__` is
`"Some"` to its `value` field, which is `undefined` — absent under the
nullish reading `toOption` — when the field is missing; and every
other shape (bare numbers, strings, booleans, buffers, records without
a recognized discriminator) to itself unchanged. -/
theorem C4_decoder_mapping :
    unwrapOptional vNull = (vNull, false)
    ∧ unwrapOptional vUndefined = (vNull, false)
    ∧ unwrapOptional (vArr []) = (vNull, false)
    ∧ (∀ x, unwrapOptional (vArr [x]) = (x, false))
    ∧ (∀ xs : List JSValue, 2 ≤ xs.length → unwrapOptional (vArr xs) = (vNull, true))
    ∧ (∀ fs, kindIs fs "None" = true → unwrapOptional (vObj fs) = (vNull, false))
    ∧ (∀ fs, kindIs fs "Some" = true →
        unwrapOptional (vObj fs) = (getField fs "value", false))
    ∧ (∀ fs, kindIs fs "Some" = true → getField fs "value" = vUndefined →
        toOption (unwrapOptional (vObj fs)).1 = none)
    ∧ (∀ fs, kindIs fs "None" = false → kindIs fs "Some" = false →
        unwrapOptional (vObj fs) = (vObj fs, false))
    ∧ (∀ n : Int, unwrapOptional (vNum n) = (vNum n, false))
    ∧ (∀ s, unwrapOptional (vStr s) = (vStr s, false))
    ∧ (∀ b, unwrapOptional (vBool b) = (vBool b, false))
    ∧ (∀ bs, unwrapOptional (vBytes bs) = (vBytes bs, false)) := by
  refine ⟨rfl, rfl, rfl, fun x => rfl, ?_, ?_, ?_, ?_, ?_,
    fun n => rfl, fun s => rfl, fun b => rfl, fun bs => rfl⟩
  · intro xs hxs
    unfold unwrapOptional
    match xs, hxs with
    | x :: y :: rest, _ => rfl
  · intro fs hn
    unfold unwrapOptional
    simp [hn]
  · intro fs hs
    unfold unwrapOptional
    simp [kindIs_some_not_none hs, hs]
  · intro fs hs hv
    unfold unwrapOptional
    simp [kindIs_some_not_none hs, hs, hv, toOption]
  · intro fs hn hs
    unfold unwrapOptional
    simp [hn, hs]

/-- Claim C4 witness: the over-long-array diagnostic case evaluated at
a concrete two-element array. -/
theorem C4_decoder_mapping_witness :
    unwrapOptional (vArr [vNum 1, vNum 2]) = (vNull, true) :=
  C4_decoder_mapping.2.2.2.2.1 [vNum 1, vNum 2] (by decide)

/-- Claim C5 — Content signature equals the reference FNV-1a
definition: `computeBytesSignature` yields the sentinel `"empty"` for
absent and zero-length input (before hashing), and for every non-empty
byte buffer its output is exactly 8 lowercase hex digits whose value is
the 32-bit FNV-1a hash of the claim's reference definition
(`fnv1aRef`: offset basis `0x811c9dc5`, per byte XOR then multiply by
`0x01000193` modulo `2^32`).  Totality (never raising, with the
`"error"` sentinel reserved for the source's unreachable catch) holds
by construction of the embedding. -/
theorem C5_signature_fnv1a :
    computeBytesSignature none = "empty"
    ∧ computeBytesSignature (some []) = "empty"
    ∧ ∀ bs : List Nat, bs ≠ [] → (∀ b ∈ bs, b < 256) →
        isHex8 (computeBytesSignature (some bs)) = true
        ∧ hexToNat (computeBytesSignature (some bs)) = fnv1aRef bs := by
  refine ⟨rfl, rfl, fun bs hne hbs => ?_⟩
  rw [computeBytesSignature_eq_ref bs hne hbs]
  exact ⟨isHex8_toHex8 _, hexToNat_toHex8 (fnv1aRef_lt bs)⟩

/-- Claim C5 witness: the hex format and reference-hash equation
evaluated at the concrete buffer `%PDF-`. -/
theorem C5_signature_fnv1a_witness :
    isHex8 (computeBytesSignature (some [37, 80, 68, 70, 45])) = true
    ∧ hexToNat (computeBytesSignature (some [37, 80, 68, 70, 45]))
        = fnv1aRef [37, 80, 68, 70, 45] :=
  C5_signature_fnv1a.2.2 [37, 80, 68, 70, 45] (by decide) (by decide)

/-- Claim C6, counterexample: the second signature iteration returns
the sentinel `"null"` for `null` input — a fourth sentinel outside the
claimed set of exactly three (`"empty"`, `"invalid-type"`, `"error"`),
and not an 8-hex-digit string. -/
theorem C6_counterexample :
    computeBytesSignatureV2 vNull = "null"
    ∧ "null" ≠ "empty" ∧ "null" ≠ "invalid-type" ∧ "null" ≠ "error"
    ∧ isHex8 "null" = false := by
  exact ⟨rfl, by decide, by decide, by decide, by decide⟩

/-- Claim C6 as amended — Signature determinism and sentinel
separation with four sentinels: the signature functions are pure
(determinism on identical byte content holds definitionally); the
second iteration's outputs range over `"null"`, `"empty"`,
`"invalid-type"` and 8-lowercase-hex-digit strings, the first
iteration's over `"empty"` and hex strings (its `"error"` catch branch
is unreachable in the pure embedding); and real content — a non-empty
canonical buffer — always hashes to a hex string on which both
iterations agree, never a sentinel. -/
theorem C6_sentinel_separation :
    (∀ v, computeBytesSignatureV2 v = "null" ∨ computeBytesSignatureV2 v = "empty"
      ∨ computeBytesSignatureV2 v = "invalid-type"
      ∨ isHex8 (computeBytesSignatureV2 v) = true)
    ∧ (∀ bytes, computeBytesSignature bytes = "empty"
      ∨ isHex8 (computeBytesSignature bytes) = true)
    ∧ (∀ bs : List Nat, bs ≠ [] → (∀ b ∈ bs, b < 256) →
        isHex8 (computeBytesSignatureV2 (vBytes bs)) = true
        ∧ computeBytesSignatureV2 (vBytes bs) = computeBytesSignature (some bs)) := by
  refine ⟨?_, ?_, ?_⟩
  · intro v
    unfold computeBytesSignatureV2
    by_cases hf : jsFalsy v = true
    · simp [hf]
    · rw [Bool.not_eq_true] at hf
      simp only [hf, Bool.false_eq_true, if_false]
      by_cases hl : jsLengthIsZero v = true
      · simp [hl]
      · rw [Bool.not_eq_true] at hl
        simp only [hl, Bool.false_eq_true, if_false]
        cases v <;> try exact Or.inr (Or.inr (Or.inl rfl))
        exact Or.inr (Or.inr (Or.inr (isHex8_toHex8 _)))
  · intro bytes
    unfold computeBytesSignature
    cases bytes with
    | none => exact Or.inl rfl
    | some bs =>
      by_cases h0 : bs.length = 0
      · simp [h0]
      · simp only [h0, if_neg, not_false_iff, if_false]
        exact Or.inr (isHex8_toHex8 _)
  · intro bs hne hbs
    have hlen : bs.length ≠ 0 := fun h => hne (List.length_eq_zero.mp h)
    have h1 : computeBytesSignatureV2 (vBytes bs)
        = toHex8 (toUInt32 (bs.foldl fnvStepJS 2166136261)) := by
      unfold computeBytesSignatureV2
      have hf : jsFalsy (vBytes bs) = false := rfl
      have hl : jsLengthIsZero (vBytes bs) = false := by
        simp [jsLengthIsZero, hlen]
      simp [hf, hl]
    have hmap : bs.map (· % 256) = bs := by
      conv_rhs => rw [← List.map_id bs]
      exact List.map_congr_left (fun b hb => Nat.mod_eq_of_lt (hbs b hb))
    have h2 : computeBytesSignature (some bs)
        = toHex8 (toUInt32 (bs.foldl fnvStepJS 2166136261)) := by
      unfold computeBytesSignature
      simp only [hlen, if_neg, not_false_iff, if_false, hmap]
    rw [h1, h2]
    exact ⟨isHex8_toHex8 _, rfl⟩

/-- Claim C6 witness: the amended real-content clause evaluated at a
concrete buffer. -/
theorem C6_sentinel_separation_witness :
    isHex8 (computeBytesSignatureV2 (vBytes [1, 2, 3])) = true
    ∧ computeBytesSignatureV2 (vBytes [1, 2, 3]) = computeBytesSignature (some [1, 2, 3]) :=
  C6_sentinel_separation.2.2 [1, 2, 3] (by decide) (by decide)

/-- Claim C7, counterexample: an ordered sequence containing the
out-of-range integer 300 is not rejected by either `normalizeBytes`
iteration — the value wraps modulo 256 to 44 (`ToUint8`), yielding a
buffer instead of the claimed `None`; and the second iteration also
returns the empty buffer (and wraps the empty array) unchanged instead
of `None`. -/
theorem C7_counterexample :
    normalizeBytesV2 (vArr [vNum 300]) = some [44]
    ∧ normalizeBytesV3 (vArr [vNum 300]) = some [44]
    ∧ normalizeBytesV2 (vBytes []) = some []
    ∧ normalizeBytesV2 (vArr []) = some []
    ∧ (some [44] : Option (List Nat)) ≠ none
    ∧ (some [] : Option (List Nat)) ≠ none := by
  exact ⟨rfl, rfl, rfl, rfl, by decide, by decide⟩

/-- Claim C7 as amended — Byte canonicalizer rejection and totality:
`normalizeBytes` never raises (totality holds by construction); both
iterations return `None` for `null`/`undefined` (indeed for any falsy
input); the third iteration also returns `None` for an empty canonical
buffer and an empty ordered sequence, while the second returns them as
empty buffers; an ordered sequence with an integer outside 0–255 is
not a canonicalization failure — the element is wrapped modulo 256 —
and non-buffer, non-array scalar shapes are rejected with `None`. -/
theorem C7_canonicalizer_totality :
    (∀ v, jsFalsy v = true → normalizeBytesV2 v = none ∧ normalizeBytesV3 v = none)
    ∧ normalizeBytesV3 (vBytes []) = none
    ∧ normalizeBytesV3 (vArr []) = none
    ∧ (∀ n : Int, normalizeBytesV2 (vArr [vNum n]) = some [(n % 256).toNat]
        ∧ normalizeBytesV3 (vArr [vNum n]) = some [(n % 256).toNat])
    ∧ (∀ s, s ≠ "" → normalizeBytesV2 (vStr s) = none ∧ normalizeBytesV3 (vStr s) = none)
    ∧ (∀ n : Int, n ≠ 0 →
        normalizeBytesV2 (vNum n) = none ∧ normalizeBytesV3 (vNum n) = none) := by
  refine ⟨?_, rfl, rfl, fun n => ⟨rfl, rfl⟩, ?_, ?_⟩
  · intro v hf
    unfold normalizeBytesV2 normalizeBytesV3
    simp [hf]
  · intro s hs
    unfold normalizeBytesV2 normalizeBytesV3
    have : jsFalsy (vStr s) = false := by simp [jsFalsy, hs]
    simp [this]
  · intro n hn
    unfold normalizeBytesV2 normalizeBytesV3
    have : jsFalsy (vNum n) = false := by simp [jsFalsy, hn]
    simp [this]

/-- Claim C7 witness: the falsy-rejection clause evaluated at `null`
input. -/
theorem C7_canonicalizer_totality_witness :
    normalizeBytesV2 vNull = none ∧ normalizeBytesV3 vNull = none :=
  C7_canonicalizer_totality.1 vNull (by decide)

/-- Claim C8, counterexample: the object `{0: 10, 2: 20}` — numeric
keys that are sparse, not a dense `0..n-1` range — is materialized by
the cited canonicalizer into the guessed buffer `[10, 20]` instead of
the claimed `None`: denseness is never checked. -/
theorem C8_counterexample :
    normalizeBytesV2 (vObj [("0", vNum 10), ("2", vNum 20)]) = some [10, 20]
    ∧ (some [10, 20] : Option (List Nat)) ≠ none := by
  exact ⟨by decide, by decide⟩

/-- Claim C8 as amended — Index-keyed object canonicalization as
implemented: the second-iteration canonicalizer materializes an object
into a buffer (in `Object.keys` enumeration order, values
`ToUint8`-wrapped) exactly when it has at least one key and every key
satisfies the JS numeric test `!isNaN(Number(key))` — denseness of the
key range is not required — and yields `None` for every other object
shape; the third iteration rejects all objects. -/
theorem C8_object_materialization (fs : List (String × JSValue)) :
    (normalizeBytesV2 (vObj fs) = none
      ↔ ¬((objKeys fs).all jsIsNumericString = true ∧ 0 < (objKeys fs).length))
    ∧ ((objKeys fs).all jsIsNumericString = true → 0 < (objKeys fs).length →
        normalizeBytesV2 (vObj fs)
          = some ((objKeys fs).map (fun k => jsToUint8 (getField fs k))))
    ∧ normalizeBytesV3 (vObj fs) = none := by
  refine ⟨?_, ?_, rfl⟩
  · rw [normalizeBytesV2_obj]
    by_cases hc : ((objKeys fs).all jsIsNumericString : Prop) ∧ (objKeys fs).length > 0
    · rw [if_pos hc]
      simp only [reduceCtorEq, false_iff, not_not]
      exact ⟨hc.1, hc.2⟩
    · rw [if_neg hc]
      simp only [true_iff]
      intro hcon
      exact hc ⟨hcon.1, hcon.2⟩
  · intro hall hlen
    rw [normalizeBytesV2_obj, if_pos ⟨by rw [hall], hlen⟩]

/-- Claim C8 witness: the materialization clause evaluated at the
concrete dense single-key object. -/
theorem C8_object_materialization_witness :
    normalizeBytesV2 (vObj [("0", vNum 7)])
      = some ((objKeys [("0", vNum 7)]).map
          (fun k => jsToUint8 (getField [("0", vNum 7)] k))) :=
  (C8_object_materialization [("0", vNum 7)]).2.1 (by decide) (by decide)

/-- Claim C9 — Attachment non-emptiness invariant of assembly: every
attachment `normalizeApplicationStatusResult` returns has non-empty
bytes, a non-empty filename carrying the `.pdf` extension
(case-insensitively), and a non-empty content type; when the
canonicalized bytes of the attachment record end up empty (the
canonicalizer yields no non-empty buffer), the attachment collapses to
`None` exactly as absence does; and the filename and content type
default to `"attachment.pdf"` and `"application/pdf"` when their
fields normalize to absent or blank. -/
theorem C9_attachment_invariant :
    (∀ raw st att, normalizeApplicationStatusResult raw = some st →
      st.attachment = some att →
      att.bytes ≠ [] ∧ att.filename ≠ ""
      ∧ endsWithStr (toLowerStr att.filename) ".pdf" = true
      ∧ att.contentType ≠ "")
    ∧ (∀ raw, (∀ bs, normalizeBytesV3 ((unwrapOptional (jsGet raw "bytes")).1) = some bs →
        bs = []) → normalizeAttachmentInner raw = none)
    ∧ (∀ raw att, normalizeAttachmentInner raw = some att →
        (normalizeStringV3 ((unwrapOptional (jsGet raw "filename")).1) = none →
          att.filename = "attachment.pdf")
        ∧ (normalizeStringV3 ((unwrapOptional (jsGet raw "contentType")).1) = none →
          att.contentType = "application/pdf")) := by
  refine ⟨?_, normalizeAttachmentInner_empty, normalizeAttachmentInner_defaults⟩
  intro raw st att h hatt
  rw [normalizeStatus_attachment raw st h] at hatt
  rcases normalizeAttachmentField_cases (jsGet ((unwrapOptional raw).1) "attachment")
    with hc | hc
  · rw [hc] at hatt
    exact absurd hatt (by simp)
  · rw [hc] at hatt
    exact normalizeAttachmentInner_invariant _ _ hatt

/-- Claim C9 witness: the empty-payload collapse evaluated at a
concrete attachment record whose bytes field is the empty array. -/
theorem C9_attachment_invariant_witness :
    normalizeAttachmentInner (vObj [("bytes", vArr [])]) = none := by
  have hn : normalizeBytesV3
      ((unwrapOptional (jsGet (vObj [("bytes", vArr [])]) "bytes")).1) = none := by decide
  exact C9_attachment_invariant.2.1 _ (fun bs h => by rw [hn] at h; cases h)

/-- Claim C10 — Equivalence of the two validator iterations: a buffer
passes `validatePDFBytes` exactly when it passes `isPdfValid` and has
at least 100 bytes; and the byte-offset trailer scan and the
decoded-string `%%EOF` substring search over the same trailing window
accept exactly the same buffers. -/
theorem C10_validator_equivalence (bs : List Nat) (hbs : ∀ b ∈ bs, b < 256) :
    ((validatePDFBytes (some bs)).isValid = true ↔ (isPdfValid bs = true ∧ 100 ≤ bs.length))
    ∧ strIncludes (charsOf (bs.drop (bs.length - 1024))) "%%EOF".data = specHasTrailer bs := by
  refine ⟨?_, window_scan_char_eq_byte bs hbs⟩
  rw [validatePDFBytes_spec_eq bs hbs, spec_isValid_iff, isPdfValid_iff bs hbs]
  constructor
  · rintro ⟨h0, h100, hh, ht⟩
    exact ⟨⟨h0, hh, ht⟩, by omega⟩
  · rintro ⟨⟨h0, hh, ht⟩, h100⟩
    exact ⟨h0, by omega, hh, ht⟩

/-- Claim C10 witness: the equivalence evaluated at the concrete valid
200-byte buffer. -/
theorem C10_validator_equivalence_witness :
    ((validatePDFBytes (some pdfBufOk)).isValid = true
      ↔ (isPdfValid pdfBufOk = true ∧ 100 ≤ pdfBufOk.length))
    ∧ strIncludes (charsOf (pdfBufOk.drop (pdfBufOk.length - 1024))) "%%EOF".data
        = specHasTrailer pdfBufOk :=
  C10_validator_equivalence pdfBufOk (by decide)
